import Mathlib

/-!
Verification of the step-to-message extraction and streaming logic of
`Gradio_UI.py` (functions `pull_messages_from_step` and `stream_to_gradio`).

The Python code is shallowly embedded: strings are Lean `String`s, the
regular-expression substitutions used by the source are modelled by
executable scanners specialised to the concrete patterns of the source,
and Python `hasattr`/`is not None` presence checks are modelled by
`Option` fields (`none` = attribute absent or `None`).  Python floats
(the `duration` field) are modelled as exact rationals, with Python's
banker's rounding (`round(x, 2)`) modelled on rationals; all inputs
exercised below are exact decimals on which the two agree.  Exceptions
raised by the Python code (IndexError, TypeError, UnboundLocalError)
are modelled by an explicit error component in the result, together
with the messages the generator yielded before raising.
-/

/-- Python whitespace characters recognised by `str.strip()` and `\s`
(restricted to the ASCII range, which covers every input considered). -/
def pySpace (c : Char) : Bool :=
  c = ' ' || c = '\t' || c = '\n' || c = '\r' || c = '\x0b' || c = '\x0c'

/-- Model of Python `str.strip()`: drop leading and trailing whitespace. -/
def pyStrip (s : String) : String :=
  String.mk (((s.data.dropWhile pySpace).reverse.dropWhile pySpace).reverse)

/-- Drop the exact character sequence `p` from the front of `l`,
returning the remainder, or `none` when `p` is not a prefix of `l`. -/
def dropPref : List Char → List Char → Option (List Char)
  | [], l => some l
  | _ :: _, [] => none
  | p :: ps, c :: cs => if p = c then dropPref ps cs else none

/-- The characters of a closing/opening code fence. -/
def fenceChars : List Char := "```".data

/-- The characters of the end-of-code marker `<end_code>`. -/
def endCodeChars : List Char := "<end_code>".data

/-- Generic model of `re.sub(pattern, repl, s)` for the patterns used by
the source: `m l` returns the remainder after a match of the pattern at
the head of `l` (or `none`), and `repl` is the literal replacement.
Scanning is leftmost, one character at a time, and continues after the
replaced segment (Python `re.sub` does not rescan replacement text).
The fuel argument is instantiated with the length of the input, which
suffices because every step consumes at least one character. -/
def reSubCore (m : List Char → Option (List Char)) (repl : List Char) :
    Nat → List Char → List Char
  | 0, l => l
  | _ + 1, [] => []
  | fuel + 1, c :: cs =>
    match m (c :: cs) with
    | some rest => repl ++ reSubCore m repl fuel rest
    | none => c :: reSubCore m repl fuel (c :: cs).tail

/-- String wrapper for `reSubCore`. -/
def reSub (m : List Char → Option (List Char)) (repl : List Char) (s : String) : String :=
  String.mk (reSubCore m repl s.data.length s.data)

/-- Matcher for the pattern `\x60\x60\x60\s*<end_code>` (a closing fence,
optional whitespace, then the end marker): greedy `\s*` followed by a
literal is equivalent to consuming the maximal whitespace run. -/
def matchP1 (l : List Char) : Option (List Char) :=
  match dropPref fenceChars l with
  | some rest => dropPref endCodeChars (rest.dropWhile pySpace)
  | none => none

/-- Matcher for the pattern `<end_code>\s*` followed by a closing fence. -/
def matchP2 (l : List Char) : Option (List Char) :=
  match dropPref endCodeChars l with
  | some rest => dropPref fenceChars (rest.dropWhile pySpace)
  | none => none

/-- Matcher for the pattern of a closing fence, `\s*\n\s*`, then the end
marker: the whitespace run between fence and marker must contain a
newline. -/
def matchP3 (l : List Char) : Option (List Char) :=
  match dropPref fenceChars l with
  | some rest =>
    if (rest.takeWhile pySpace).contains '\n' then
      dropPref endCodeChars (rest.dropWhile pySpace)
    else none
  | none => none

/-- Model of the model-output clean-up of `pull_messages_from_step`
(source lines 64-79): strip, apply the three end-of-code substitutions
(each replaced by a bare closing fence), strip again. -/
def cleanModelOutput (s : String) : String :=
  let m0 := pyStrip s
  let m1 := reSub matchP1 fenceChars m0
  let m2 := reSub matchP2 fenceChars m1
  let m3 := reSub matchP3 fenceChars m2
  pyStrip m3

/-- Model of `re.sub(r"^Execution logs:\s*", "", s)` (anchored at the
start of the string, so at most one replacement). -/
def subExecLogsPre (s : String) : String :=
  match dropPref ("Execution logs:".data) s.data with
  | some rest => String.mk (rest.dropWhile pySpace)
  | none => s

/-- Matcher for an opening code-fence line: a fence, lazily any
non-newline characters, then a newline (pattern fails without one). -/
def matchOpenFence (l : List Char) : Option (List Char) :=
  match dropPref fenceChars l with
  | some rest =>
    match rest.dropWhile (fun c => c ≠ '\n') with
    | '\n' :: r => some r
    | _ => none
  | none => none

/-- Matcher for `\s*<end_code>\s*`: maximal whitespace run, the end
marker, then the maximal trailing whitespace run. -/
def matchWsEndCodeWs (l : List Char) : Option (List Char) :=
  match dropPref endCodeChars (l.dropWhile pySpace) with
  | some rest => some (rest.dropWhile pySpace)
  | none => none

/-- Model of Python `s.startswith(p)`. -/
def strStartsWith (s p : String) : Bool :=
  (dropPref p.data s.data).isSome

/-- Model of the used-code content clean-up (source lines 95-105):
remove opening code-fence lines, remove end-of-code markers, strip, and
wrap in a python-tagged fenced block unless already so wrapped. -/
def cleanCodeContent (c : String) : String :=
  let c1 := reSub matchOpenFence [] c
  let c2 := reSub matchWsEndCodeWs [] c1
  let c3 := pyStrip c2
  if strStartsWith c3 "```python" then c3 else "```python\n" ++ c3 ++ "\n```"

/-- Arguments of a tool call: either a mapping (modelled as an
association list of string keys and string values) or an opaque value
already carrying its string form. -/
inductive ToolArgs where
  | dict (entries : List (String × String))
  | other (s : String)
deriving DecidableEq

/-- Model of Python `str(...)` on a string-valued dict, as used by the
`str(args)` fallback: keys and values in repr quotes. -/
def pyDictRepr (es : List (String × String)) : String :=
  "\x7b" ++
    String.intercalate ", "
      (es.map (fun kv => "\x27" ++ kv.1 ++ "\x27: \x27" ++ kv.2 ++ "\x27")) ++
  "\x7d"

/-- A tool call: a capability name and its arguments. -/
structure ToolCall where
  name : String
  arguments : ToolArgs
deriving DecidableEq

/-- Content of the parent tool-call message (source lines 84-105): take
the value at key "answer" when the arguments form a mapping (falling
back to the stringified mapping), or the stringified, stripped scalar;
then apply the used-code clean-up when the tool is the code executor. -/
def toolCallContent (tc : ToolCall) : String :=
  let content :=
    match tc.arguments with
    | .dict entries =>
      match entries.lookup "answer" with
      | some v => v
      | none => pyDictRepr entries
    | .other s => pyStrip s
  if tc.name = "python_interpreter" then cleanCodeContent content else content

/-- Insert thousands separators into a reversed digit list: a comma
after every third digit. -/
def commaRev : List Char → Nat → List Char
  | [], _ => []
  | c :: cs, n => if n = 3 then ',' :: c :: commaRev cs 1 else c :: commaRev cs (n + 1)

/-- Model of the Python format `f"{n:,}"` for natural numbers. -/
def fmtThousandsNat (n : Nat) : String :=
  String.mk ((commaRev (Nat.repr n).data.reverse 0).reverse)

/-- Model of the Python format `f"{n:,}"` for integers. -/
def fmtThousandsInt (n : Int) : String :=
  if n < 0 then "-" ++ fmtThousandsNat n.natAbs else fmtThousandsNat n.toNat

/-- The number of hundredths in `q` rounded half-to-even, i.e. Python's
`round(q, 2)` scaled by 100, computed on the numerator and denominator
directly (`q * 100 = (100 * num) / den` with `den > 0`, whose floor is
the flooring integer division, and whose fractional part compares to
one half by comparing twice the remainder with the denominator). -/
def pyRound2Num (q : ℚ) : ℤ :=
  let n : ℤ := q.num * 100
  let d : ℤ := (q.den : ℤ)
  let f : ℤ := Int.fdiv n d
  let rem : ℤ := n - f * d
  if 2 * rem < d then f
  else if 2 * rem > d then f + 1
  else if f % 2 = 0 then f else f + 1

/-- Model of `str(round(float(d), 2))` on a duration modelled as an
exact rational: round to hundredths half-to-even and print the way
Python prints the resulting float (no trailing zero beyond the first
decimal place). -/
def pyRound2Str (q : ℚ) : String :=
  let k := pyRound2Num q
  let sign := if k < 0 then "-" else ""
  let m := k.natAbs
  let ip := m / 100
  let fr := m % 100
  sign ++
    (if fr = 0 then Nat.repr ip ++ ".0"
     else if fr % 10 = 0 then Nat.repr ip ++ "." ++ Nat.repr (fr / 10)
     else if fr < 10 then Nat.repr ip ++ ".0" ++ Nat.repr fr
     else Nat.repr ip ++ "." ++ Nat.repr fr)

/-- Metadata of a chat message; `none` fields model absent dict keys. -/
structure MsgMeta where
  title : Option String
  id : Option String
  parent_id : Option String
  status : Option String
deriving DecidableEq

/-- Content of a chat message: plain text or a typed media reference. -/
inductive MsgContent where
  | text (s : String)
  | media (path : String) (mime_type : String)
deriving DecidableEq

/-- A gradio `ChatMessage` as constructed by the source: a role (always
"assistant" here), content, and optional metadata. -/
structure ChatMessage where
  role : String
  content : MsgContent
  metadata : Option MsgMeta
deriving DecidableEq

/-- A plain assistant text message without metadata. -/
def mkText (c : String) : ChatMessage :=
  ChatMessage.mk "assistant" (MsgContent.text c) none

/-- The optional fields of an action step (source `ActionStep`); `none`
models the attribute being absent or `None`. `tool_calls` distinguishes
a present empty list (`some []`) from absence, because the source's
`is not None` check lets an empty list through to `tool_calls[0]`. -/
structure ActionStep where
  step_number : Option Int
  model_output : Option String
  tool_calls : Option (List ToolCall)
  observations : Option String
  error : Option String
  input_token_count : Option Int
  output_token_count : Option Int
  duration : Option ℚ
deriving DecidableEq

/-- A step yielded by the agent's run loop: an action step, or any
other value (only action steps produce messages; the final yielded
value is normalised into the final answer). -/
inductive StepLog where
  | action (s : ActionStep)
  | other (v : String)
deriving DecidableEq

/-- Python exceptions the modelled code can raise. -/
inductive PyError where
  | indexError
  | typeError
  | nameError
deriving DecidableEq

/-- Result of running the extractor generator to exhaustion: the
messages yielded (snapshots at yield time), the final status of the
retained parent tool message after its in-place mutation (when a parent
was created), and the exception that aborted the generator, if any. -/
structure PullResult where
  messages : List ChatMessage
  parentFinalStatus : Option String
  err : Option PyError
deriving DecidableEq

/-- The step label (source line 59-61): `"Step {n}"`, or empty. -/
def stepLabel (s : ActionStep) : String :=
  match s.step_number with
  | some n => "Step " ++ toString n
  | none => ""

/-- The unconditional header message (source line 62). -/
def headerMessage (s : ActionStep) : ChatMessage :=
  mkText ("**" ++ stepLabel s ++ "**")

/-- The optional model-output message (source lines 65-79). -/
def modelOutputMessages (s : ActionStep) : List ChatMessage :=
  match s.model_output with
  | some mo => [mkText (cleanModelOutput mo)]
  | none => []

/-- The parent tool-call message as yielded (source lines 107-116):
status is `pending` at yield time. -/
def parentMessageTool (tc : ToolCall) (pid : String) : ChatMessage :=
  ChatMessage.mk "assistant" (MsgContent.text (toolCallContent tc))
    (some (MsgMeta.mk (some ("🛠️ Used tool " ++ tc.name)) (some pid) none
      (some "pending")))

/-- The execution-log child messages (source lines 119-133): the source
tests `observations.strip()` for truthiness BEFORE stripping the
`Execution logs:` prefix, so a child is yielded whenever the trimmed
observations are non-empty, even when only the prefix remains and the
content ends up empty. -/
def execLogMessages (s : ActionStep) (pid : String) : List ChatMessage :=
  match s.observations with
  | some obs =>
    if pyStrip obs = "" then []
    else
      [ChatMessage.mk "assistant" (MsgContent.text (subExecLogsPre (pyStrip obs)))
        (some (MsgMeta.mk (some "📝 Execution Logs") none (some pid) (some "done")))]
  | none => []

/-- The error child message nested under the parent (source 136-145). -/
def errorChildMessages (s : ActionStep) (pid : String) : List ChatMessage :=
  match s.error with
  | some e =>
    [ChatMessage.mk "assistant" (MsgContent.text e)
      (some (MsgMeta.mk (some "💥 Error") none (some pid) (some "done")))]
  | none => []

/-- The standalone error message emitted when there are no tool calls
(source lines 151-156): metadata holds only a title. -/
def standaloneErrorMessages (s : ActionStep) : List ChatMessage :=
  match s.error with
  | some e =>
    [ChatMessage.mk "assistant" (MsgContent.text e)
      (some (MsgMeta.mk (some "💥 Error") none none none))]
  | none => []

/-- The token segment of the footnote (source lines 160-164), appended
when both token-count attributes are present. -/
def tokenSegment (s : ActionStep) : String :=
  match s.input_token_count, s.output_token_count with
  | some i, some o =>
    " | Input-tokens:" ++ fmtThousandsInt i ++ " | Output-tokens:" ++ fmtThousandsInt o
  | _, _ => ""

/-- The fixed style wrapper around the footnote (source line 172),
including its trailing space. -/
def spanWrap (s : String) : String :=
  "<span style=\"color: #bbbbc2; font-size: 12px;\">" ++ s ++ "</span> "

/-- The footnote and separator messages (source lines 158-174).  When
`duration` is present but falsy the source computes `step_duration =
None` and then evaluates `step_footnote += None`, raising `TypeError`
before the footnote is yielded; this is modelled by the error case. -/
def footnoteMessages (s : ActionStep) : Except PyError (List ChatMessage) :=
  match s.duration with
  | some d =>
    if d ≠ 0 then
      Except.ok [mkText (spanWrap (stepLabel s ++ tokenSegment s ++
                   " | Duration: " ++ pyRound2Str d)),
                 mkText "-----"]
    else Except.error PyError.typeError
  | none => Except.ok [mkText (spanWrap (stepLabel s ++ tokenSegment s)), mkText "-----"]

/-- Model of `pull_messages_from_step` (source lines 51-174), run to
exhaustion.  Non-action steps yield nothing.  When `tool_calls` is a
present empty list the source evaluates `step_log.tool_calls[0]` and
raises `IndexError` after the header and model-output messages. -/
def pull_messages_from_step : StepLog → PullResult
  | StepLog.other _ => PullResult.mk [] none none
  | StepLog.action s =>
    let hdr := [headerMessage s] ++ modelOutputMessages s
    match s.tool_calls with
    | some [] => PullResult.mk hdr none (some PyError.indexError)
    | some (tc :: rest) =>
      let pid := "call_" ++ toString (tc :: rest).length
      let body := [parentMessageTool tc pid] ++ execLogMessages s pid ++
        errorChildMessages s pid
      match footnoteMessages s with
      | Except.ok fns => PullResult.mk (hdr ++ body ++ fns) (some "done") none
      | Except.error pe => PullResult.mk (hdr ++ body) (some "done") (some pe)
    | none =>
      match footnoteMessages s with
      | Except.ok fns =>
        PullResult.mk (hdr ++ standaloneErrorMessages s ++ fns) none none
      | Except.error pe =>
        PullResult.mk (hdr ++ standaloneErrorMessages s) none (some pe)

/-- Modelled from the spec: the external normalization collaborator
(`handle_agent_output_types` together with the `AgentText`/`AgentImage`/
`AgentAudio` types, which live outside this repository) always yields
one of four variants — text, an image path, an audio path, or any other
value consumed via its string form. -/
inductive FinalAnswer where
  | text (s : String)
  | image (path : String)
  | audio (path : String)
  | other (v : String)
deriving DecidableEq

/-- Model of the final-answer dispatch of `stream_to_gradio` (source
lines 212-230): a total function from the four variants to a message. -/
def renderFinalAnswer : FinalAnswer → ChatMessage
  | FinalAnswer.text t =>
    ChatMessage.mk "assistant"
      (MsgContent.text ("**Final answer:**\n" ++ t ++ "\n")) none
  | FinalAnswer.image p =>
    ChatMessage.mk "assistant" (MsgContent.media p "image/png") none
  | FinalAnswer.audio p =>
    ChatMessage.mk "assistant" (MsgContent.media p "audio/wav") none
  | FinalAnswer.other v =>
    ChatMessage.mk "assistant" (MsgContent.text ("**Final answer:** " ++ v)) none

/-- One iteration's view of the agent's stream: the yielded step and
the model collaborator's last-call token counts as read at that point
(`none` models the model not exposing `last_input_token_count`). -/
structure RunItem where
  step : StepLog
  counts : Option (Int × Int)
deriving DecidableEq

/-- Contribution of an iteration to the running input-token total. -/
def countIn (it : RunItem) : Int :=
  match it.counts with
  | some (a, _) => a
  | none => 0

/-- Contribution of an iteration to the running output-token total. -/
def countOut (it : RunItem) : Int :=
  match it.counts with
  | some (_, b) => b
  | none => 0

/-- The in-place stamping of source lines 200-202: when counts are
exposed and the step is an action step, its token-count fields are
overwritten with the just-read per-call values. -/
def stamp (it : RunItem) : StepLog :=
  match it.counts, it.step with
  | some (a, b), StepLog.action s =>
    StepLog.action
      { s with input_token_count := some a, output_token_count := some b }
  | _, st => st

/-- Result of running the streaming generator to exhaustion. -/
structure StreamResult where
  messages : List ChatMessage
  totalIn : Int
  totalOut : Int
  err : Option PyError
deriving DecidableEq

/-- The streaming loop of `stream_to_gradio` (source lines 193-230):
per-iteration token accounting and stamping, delegation to the
extractor, and after exhaustion normalization and rendering of the last
observed (stamped) step.  `lastLog` models the loop variable
`step_log`; with no iterations it is unbound and reading it raises an
unbound-variable error (`UnboundLocalError`, modelled as `nameError`). -/
def streamLoop (classify : StepLog → FinalAnswer) (tin tout : Int)
    (lastLog : Option StepLog) : List RunItem → StreamResult
  | [] =>
    match lastLog with
    | none => StreamResult.mk [] tin tout (some PyError.nameError)
    | some last =>
      StreamResult.mk [renderFinalAnswer (classify last)] tin tout none
  | it :: rest =>
    let tin2 := tin + countIn it
    let tout2 := tout + countOut it
    let r := pull_messages_from_step (stamp it)
    match r.err with
    | some e => StreamResult.mk r.messages tin2 tout2 (some e)
    | none =>
      let t := streamLoop classify tin2 tout2 (some (stamp it)) rest
      StreamResult.mk (r.messages ++ t.messages) t.totalIn t.totalOut t.err

/-- Model of `stream_to_gradio` (source lines 177-230), with the
external normalization collaborator passed in as `classify`. -/
def stream_to_gradio (classify : StepLog → FinalAnswer)
    (items : List RunItem) : StreamResult :=
  streamLoop classify 0 0 none items

/-- Does a message carry metadata with the given title? -/
def titleIs (t : String) (m : ChatMessage) : Bool :=
  match m.metadata with
  | some md => decide (md.title = some t)
  | none => false

/-- Does a message carry any metadata at all? -/
def hasMeta (m : ChatMessage) : Bool :=
  m.metadata.isSome

/-- Does a message carry metadata with an `id` key (true exactly of the
parent tool-call message)? -/
def hasCallId (m : ChatMessage) : Bool :=
  match m.metadata with
  | some md => md.id.isSome
  | none => false

/-- A non-code tool call used by concrete test steps. -/
def c1CexTool : ToolCall := ToolCall.mk "image_generator" (ToolArgs.other "x")

/-- A step whose observations hold only the prefix `Execution logs:` and a
newline: trimmed they are non-empty, but stripping the prefix leaves nothing. -/
def c1CexStep : ActionStep :=
  ActionStep.mk none none (some [c1CexTool]) (some "Execution logs:\n") none none none none

/-- A tool call used by the concrete execution-logs step below. -/
def c1WitTool : ToolCall := ToolCall.mk "final_answer" (ToolArgs.other "hi")

/-- A step whose observations carry real content after the prefix. -/
def c1WitStep : ActionStep :=
  ActionStep.mk none none (some [c1WitTool]) (some "Execution logs:   \n  done\n")
    none none none none

/-- A step with a present but EMPTY tool-call list and an error. -/
def c2CexStep : ActionStep :=
  ActionStep.mk none none (some []) none (some "boom") none none none

/-- A step with no tool calls and an error. -/
def c2WitStep : ActionStep :=
  ActionStep.mk (some 3) none none none (some "oops") none none none

/-- A step whose duration is present and zero (falsy in Python). -/
def c3Step : ActionStep :=
  ActionStep.mk (some 1) none none none none none none (some 0)

/-- Model output ending in a closing fence, newline, end marker. -/
def c4StepA : ActionStep :=
  ActionStep.mk none (some "x\n```\n<end_code>") none none none none none none

/-- Model output ending in an end marker followed by a closing fence. -/
def c4StepB : ActionStep :=
  ActionStep.mk none (some "x\n<end_code>```") none none none none none none

/-- Model output with variant whitespace between fence and end marker. -/
def c4StepC : ActionStep :=
  ActionStep.mk none (some "x\n``` \n <end_code>") none none none none none none

/-- The rational 1.236 (= 309/250) in lowest terms. -/
def dur1236 : ℚ := Rat.mk' 309 250 (by decide) (by decide)

/-- A step with token counts 1200/5 and duration 1.236 seconds. -/
def c8Step : ActionStep :=
  ActionStep.mk (some 2) none none none none (some 1200) (some 5) (some dur1236)

/-- A step whose only tool call is the code executor printing 1. -/
def c5WitStep : ActionStep :=
  ActionStep.mk none none
    (some [ToolCall.mk "python_interpreter" (ToolArgs.dict [("answer", "print(1)")])])
    none none none none none

/-- A search tool call used by the concrete nesting step below. -/
def c6WitTool : ToolCall := ToolCall.mk "web_search" (ToolArgs.other "query")

/-- A step with one tool call, observations and an error. -/
def c6WitStep : ActionStep :=
  ActionStep.mk (some 1) none (some [c6WitTool]) (some "Execution logs: hi")
    (some "bang") none none none

/-- A concrete normalization collaborator classifying everything as Other. -/
def classifyW : StepLog → FinalAnswer := fun _ => FinalAnswer.other "42"

/-- An action step with every optional field absent. -/
def c7WitStep : ActionStep :=
  ActionStep.mk none none none none none none none none

/-- A one-iteration stream whose model reports 7 input / 3 output tokens. -/
def c7Items : List RunItem :=
  [RunItem.mk (StepLog.action c7WitStep) (some (7, 3))]

/-- The parent message's title begins with the tool emoji, whatever the
tool name is. -/
lemma tool_title_head (x : String) :
    (("🛠️ Used tool " ++ x : String)).data.head? = some (Char.ofNat 0x1F6E0) := by
  cases x with
  | mk l => rfl

/-- The parent message's title is never the execution-logs title. -/
lemma tool_title_ne_exec (x : String) :
    ("🛠️ Used tool " ++ x : String) ≠ "📝 Execution Logs" := by
  intro h
  have h2 : (("🛠️ Used tool " ++ x : String)).data.head? =
      ("📝 Execution Logs" : String).data.head? := by rw [h]
  rw [tool_title_head x] at h2
  exact absurd h2 (by decide)

lemma titleIs_of_metadata_none (t : String) (m : ChatMessage)
    (h : m.metadata = none) : titleIs t m = false := by
  simp [titleIs, h]

lemma hasMeta_of_metadata_none (m : ChatMessage)
    (h : m.metadata = none) : hasMeta m = false := by
  simp [hasMeta, h]

lemma hasCallId_of_metadata_none (m : ChatMessage)
    (h : m.metadata = none) : hasCallId m = false := by
  simp [hasCallId, h]

lemma filter_eq_nil_of_metadata_none (p : ChatMessage → Bool)
    (hp : ∀ m, m.metadata = none → p m = false) (l : List ChatMessage)
    (h : ∀ m ∈ l, m.metadata = none) : l.filter p = [] := by
  refine List.filter_eq_nil_iff.mpr (fun a ha => ?_)
  simp [hp a (h a ha)]

lemma headerMessage_metadata (s : ActionStep) :
    (headerMessage s).metadata = none := rfl

lemma modelOutput_metadata_none (s : ActionStep) :
    ∀ m ∈ modelOutputMessages s, m.metadata = none := by
  cases h : s.model_output <;> simp [modelOutputMessages, h, mkText]

lemma footnote_ok_metadata_none (s : ActionStep) (fns : List ChatMessage)
    (h : footnoteMessages s = Except.ok fns) :
    ∀ m ∈ fns, m.metadata = none := by
  unfold footnoteMessages at h
  split at h
  · split at h
    · simp only [Except.ok.injEq] at h
      subst h
      simp [mkText]
    · exact absurd h (by simp)
  · simp only [Except.ok.injEq] at h
    subst h
    simp [mkText]

lemma execLog_messages_shape (s : ActionStep) (pid : String) :
    ∀ m ∈ execLogMessages s pid, ∃ t c,
      m = ChatMessage.mk "assistant" (MsgContent.text c)
        (some (MsgMeta.mk (some t) none (some pid) (some "done"))) := by
  cases h : s.observations with
  | none => simp [execLogMessages, h]
  | some obs =>
    simp only [execLogMessages, h]
    split
    · simp
    · intro m hm
      simp only [List.mem_singleton] at hm
      exact ⟨"📝 Execution Logs", subExecLogsPre (pyStrip obs), hm⟩

lemma errorChild_messages_shape (s : ActionStep) (pid : String) :
    ∀ m ∈ errorChildMessages s pid, ∃ t c,
      m = ChatMessage.mk "assistant" (MsgContent.text c)
        (some (MsgMeta.mk (some t) none (some pid) (some "done"))) := by
  cases h : s.error with
  | none => simp [errorChildMessages, h]
  | some e =>
    intro m hm
    simp only [errorChildMessages, h, List.mem_singleton] at hm
    exact ⟨"💥 Error", e, hm⟩

lemma titleIs_parent_exec (tc : ToolCall) (pid : String) :
    titleIs "📝 Execution Logs" (parentMessageTool tc pid) = false := by
  simp only [titleIs, parentMessageTool, decide_eq_false_iff_not, Option.some.injEq]
  exact tool_title_ne_exec tc.name

lemma hasCallId_parent (tc : ToolCall) (pid : String) :
    hasCallId (parentMessageTool tc pid) = true := rfl

lemma execLog_filter_keep (s : ActionStep) (pid : String) :
    (execLogMessages s pid).filter (titleIs "📝 Execution Logs")
      = execLogMessages s pid := by
  cases h : s.observations with
  | none => simp [execLogMessages, h]
  | some obs =>
    simp only [execLogMessages, h]
    split
    · simp
    · simp [titleIs]

lemma execLog_filter_hasCallId (s : ActionStep) (pid : String) :
    (execLogMessages s pid).filter hasCallId = [] := by
  cases h : s.observations with
  | none => simp [execLogMessages, h]
  | some obs =>
    simp only [execLogMessages, h]
    split
    · simp
    · simp [hasCallId]

lemma errorChild_filter_exec (s : ActionStep) (pid : String) :
    (errorChildMessages s pid).filter (titleIs "📝 Execution Logs") = [] := by
  cases h : s.error <;> simp [errorChildMessages, h, titleIs]

lemma errorChild_filter_hasCallId (s : ActionStep) (pid : String) :
    (errorChildMessages s pid).filter hasCallId = [] := by
  cases h : s.error <;> simp [errorChildMessages, h, hasCallId]

/-- Structure of the extractor's output on a step with a non-empty tool-call
list: header, optional model output, the parent message, execution-log and
error children, then a metadata-less tail (footnote and separator, absent
when the footnote raises), with the retained parent mutated to done. -/
lemma pull_messages_decomp (s : ActionStep) (tc : ToolCall) (rest : List ToolCall)
    (htc : s.tool_calls = some (tc :: rest)) :
    ∃ tail, (∀ m ∈ tail, m.metadata = none) ∧
      (pull_messages_from_step (StepLog.action s)).messages
        = [headerMessage s] ++ modelOutputMessages s ++
          [parentMessageTool tc ("call_" ++ toString (tc :: rest).length)] ++
          execLogMessages s ("call_" ++ toString (tc :: rest).length) ++
          errorChildMessages s ("call_" ++ toString (tc :: rest).length) ++ tail ∧
      (pull_messages_from_step (StepLog.action s)).parentFinalStatus = some "done" := by
  cases hf : footnoteMessages s with
  | ok fns =>
    refine ⟨fns, footnote_ok_metadata_none s fns hf, ?_, ?_⟩ <;>
      simp [pull_messages_from_step, htc, hf]
  | error pe =>
    refine ⟨[], by simp, ?_, ?_⟩ <;>
      simp [pull_messages_from_step, htc, hf]

/-- When the duration field is absent or truthy, the footnote is emitted. -/
lemma footnote_ok_of_duration_ok (s : ActionStep)
    (hdur : s.duration = none ∨ ∃ d, s.duration = some d ∧ d ≠ 0) :
    ∃ fns, footnoteMessages s = Except.ok fns := by
  rcases hdur with hd | ⟨d, hd, hne⟩
  · exact ⟨[mkText (spanWrap (stepLabel s ++ tokenSegment s)), mkText "-----"],
      by simp [footnoteMessages, hd]⟩
  · exact ⟨[mkText (spanWrap (stepLabel s ++ tokenSegment s ++ " | Duration: " ++
        pyRound2Str d)), mkText "-----"],
      by simp [footnoteMessages, hd, hne]⟩

/-- Closed form of the streaming loop when no extraction errors occur: the
messages are the concatenation of each stamped step's extraction followed by
the rendered final answer of the last observed stamped step, and the totals
grow by the per-iteration counts. -/
lemma streamLoop_ok (classify : StepLog → FinalAnswer) :
    ∀ (items : List RunItem) (tin tout : Int) (prev : StepLog),
      (∀ it ∈ items, (pull_messages_from_step (stamp it)).err = none) →
      streamLoop classify tin tout (some prev) items =
        StreamResult.mk
          ((items.flatMap fun it => (pull_messages_from_step (stamp it)).messages)
            ++ [renderFinalAnswer (classify ((items.getLast?.map stamp).getD prev))])
          (tin + (items.map countIn).sum) (tout + (items.map countOut).sum) none := by
  intro items
  induction items with
  | nil =>
    intro tin tout prev h
    simp [streamLoop]
  | cons it rest ih =>
    intro tin tout prev h
    have he := h it (List.mem_cons_self it rest)
    have htail : ∀ x ∈ rest, (pull_messages_from_step (stamp x)).err = none :=
      fun x hx => h x (List.mem_cons_of_mem it hx)
    simp only [streamLoop, he]
    rw [ih (tin + countIn it) (tout + countOut it) (stamp it) htail]
    cases rest with
    | nil => simp [Int.add_assoc]
    | cons r rs =>
      obtain ⟨y, hy⟩ : ∃ y, (r :: rs).getLast? = some y :=
        ⟨(r :: rs).getLast (by simp), List.getLast?_eq_getLast _ (by simp)⟩
      simp [List.getLast?_cons_cons, hy, Int.add_assoc, List.append_assoc]

/-- C1 (amended): for every action step with a non-empty tool_calls field and
present observations, an Execution Logs child message is emitted if and only
if the trimmed observations are non-empty; its content is the trimmed
observations with a leading `Execution logs:` prefix (and following
whitespace) stripped, which may be empty.  The original claim's condition —
non-emptiness after also stripping the prefix — is refuted by
`exec_logs_child_emitted_for_prefix_only_observations`. -/
theorem exec_logs_child_iff_trimmed_observations_nonempty
    (s : ActionStep) (tc : ToolCall) (rest : List ToolCall) (obs : String)
    (htc : s.tool_calls = some (tc :: rest)) (hobs : s.observations = some obs) :
    (pull_messages_from_step (StepLog.action s)).messages.filter
        (titleIs "📝 Execution Logs")
      = if pyStrip obs = "" then []
        else
          [ChatMessage.mk "assistant"
            (MsgContent.text (subExecLogsPre (pyStrip obs)))
            (some (MsgMeta.mk (some "📝 Execution Logs") none
              (some ("call_" ++ toString (tc :: rest).length)) (some "done")))] := by
  obtain ⟨tail, htail, hmsg, _⟩ := pull_messages_decomp s tc rest htc
  rw [hmsg]
  simp only [List.filter_append]
  rw [execLog_filter_keep, errorChild_filter_exec,
    filter_eq_nil_of_metadata_none _ (fun m h => titleIs_of_metadata_none _ m h) _
      (modelOutput_metadata_none s),
    filter_eq_nil_of_metadata_none _ (fun m h => titleIs_of_metadata_none _ m h) _
      htail]
  have h1 : [headerMessage s].filter (titleIs "📝 Execution Logs") = [] := by
    simp [titleIs_of_metadata_none _ _ (headerMessage_metadata s)]
  have h2 : [parentMessageTool tc ("call_" ++ toString (tc :: rest).length)].filter
      (titleIs "📝 Execution Logs") = [] := by
    simp [titleIs_parent_exec]
  rw [h1, h2]
  simp only [List.nil_append, List.append_nil]
  simp only [execLogMessages, hobs]

/-- C1 counterexample: for observations consisting of exactly the prefix
`Execution logs:` and a newline, the code DOES emit an Execution Logs child
message, with empty content, contradicting the claim that no child message
is emitted in that case. -/
theorem exec_logs_child_emitted_for_prefix_only_observations :
    (pull_messages_from_step (StepLog.action c1CexStep)).messages.filter
        (titleIs "📝 Execution Logs")
      = [ChatMessage.mk "assistant" (MsgContent.text "")
          (some (MsgMeta.mk (some "📝 Execution Logs") none (some "call_1")
            (some "done")))] := by decide

/-- C1 witness: for observations with content after the prefix the child
message content is `done`. -/
theorem exec_logs_child_iff_trimmed_observations_nonempty_witness :
    (pull_messages_from_step (StepLog.action c1WitStep)).messages.filter
        (titleIs "📝 Execution Logs")
      = if pyStrip "Execution logs:   \n  done\n" = "" then []
        else
          [ChatMessage.mk "assistant"
            (MsgContent.text (subExecLogsPre (pyStrip "Execution logs:   \n  done\n")))
            (some (MsgMeta.mk (some "📝 Execution Logs") none
              (some ("call_" ++ toString ([c1WitTool]).length)) (some "done")))] :=
  exec_logs_child_iff_trimmed_observations_nonempty c1WitStep c1WitTool [] _ rfl rfl

/-- C2 (amended): for every action step whose tool_calls field is absent or
None (not merely empty) and whose error is present, provided the duration
field is absent or truthy, extraction succeeds and emits exactly one message
carrying metadata: the standalone error message titled with the error emoji
and no parent_id or status linkage. -/
theorem standalone_error_without_tool_calls
    (s : ActionStep) (e : String)
    (htc : s.tool_calls = none) (herr : s.error = some e)
    (hdur : s.duration = none ∨ ∃ d, s.duration = some d ∧ d ≠ 0) :
    (pull_messages_from_step (StepLog.action s)).err = none ∧
    (pull_messages_from_step (StepLog.action s)).messages.filter hasMeta
      = [ChatMessage.mk "assistant" (MsgContent.text e)
          (some (MsgMeta.mk (some "💥 Error") none none none))] := by
  obtain ⟨fns, hf⟩ := footnote_ok_of_duration_ok s hdur
  constructor
  · simp [pull_messages_from_step, htc, hf]
  · simp only [pull_messages_from_step, htc, hf]
    simp only [List.filter_append]
    rw [filter_eq_nil_of_metadata_none _ hasMeta_of_metadata_none _
        (modelOutput_metadata_none s),
      filter_eq_nil_of_metadata_none _ hasMeta_of_metadata_none _
        (footnote_ok_metadata_none s fns hf)]
    have h1 : [headerMessage s].filter hasMeta = [] := by
      simp [hasMeta_of_metadata_none _ (headerMessage_metadata s)]
    rw [h1]
    simp [standaloneErrorMessages, herr, hasMeta]

/-- C2 counterexample: with tool_calls a present EMPTY sequence and an error
present, extraction raises IndexError at `tool_calls[0]` and emits no
standalone error message, contradicting the claim for the empty-sequence
case. -/
theorem empty_tool_calls_extraction_fails :
    (pull_messages_from_step (StepLog.action c2CexStep)).err
        = some PyError.indexError ∧
    (pull_messages_from_step (StepLog.action c2CexStep)).messages.filter hasMeta
        = [] := by decide

/-- C2 witness: a step with no tool calls and error `oops` yields exactly the
standalone error message, and extraction succeeds. -/
theorem standalone_error_without_tool_calls_witness :
    (pull_messages_from_step (StepLog.action c2WitStep)).err = none ∧
    (pull_messages_from_step (StepLog.action c2WitStep)).messages.filter hasMeta
      = [ChatMessage.mk "assistant" (MsgContent.text "oops")
          (some (MsgMeta.mk (some "💥 Error") none none none))] :=
  standalone_error_without_tool_calls c2WitStep "oops" rfl rfl (Or.inl rfl)

/-- C3: the claim says a present falsy duration still yields the footnote
without the duration segment; the code instead evaluates
`step_footnote += None` and raises TypeError, emitting no footnote and no
separator.  This theorem evaluates the code at the failing input: a step
with duration present and equal to zero. -/
theorem duration_present_falsy_raises_type_error :
    pull_messages_from_step (StepLog.action c3Step)
      = PullResult.mk [mkText "**Step 1**"] none (some PyError.typeError) := by
  decide

/-- C4: the three end-of-code textual patterns in a step's model output are
each replaced by a bare closing fence and the result trimmed again, so all
three concrete inputs yield the identical normalized message content. -/
theorem model_output_end_code_patterns_normalize :
    (pull_messages_from_step (StepLog.action c4StepA)).messages.get? 1
        = some (mkText "x\n```") ∧
    (pull_messages_from_step (StepLog.action c4StepB)).messages.get? 1
        = some (mkText "x\n```") ∧
    (pull_messages_from_step (StepLog.action c4StepC)).messages.get? 1
        = some (mkText "x\n```") := by
  decide

/-- C5: for every action step whose only tool call is the code-execution
tool with arguments mapping answer to `print(1)`, the parent message content
is exactly the python-fenced block around `print(1)`. -/
theorem code_tool_parent_message_content
    (s : ActionStep)
    (htc : s.tool_calls = some [ToolCall.mk "python_interpreter"
        (ToolArgs.dict [("answer", "print(1)")])]) :
    (pull_messages_from_step (StepLog.action s)).messages.filter hasCallId
      = [ChatMessage.mk "assistant" (MsgContent.text "```python\nprint(1)\n```")
          (some (MsgMeta.mk (some "🛠️ Used tool python_interpreter")
            (some "call_1") none (some "pending")))] := by
  obtain ⟨tail, htail, hmsg, _⟩ := pull_messages_decomp s _ [] htc
  rw [hmsg]
  simp only [List.filter_append]
  rw [execLog_filter_hasCallId, errorChild_filter_hasCallId,
    filter_eq_nil_of_metadata_none _ hasCallId_of_metadata_none _
      (modelOutput_metadata_none s),
    filter_eq_nil_of_metadata_none _ hasCallId_of_metadata_none _ htail]
  have h1 : [headerMessage s].filter hasCallId = [] := by
    simp [hasCallId_of_metadata_none _ (headerMessage_metadata s)]
  rw [h1]
  simp only [List.nil_append, List.append_nil]
  decide

/-- C5 witness: concrete step exercising the code-tool parent content. -/
theorem code_tool_parent_message_content_witness :
    (pull_messages_from_step (StepLog.action c5WitStep)).messages.filter hasCallId
      = [ChatMessage.mk "assistant" (MsgContent.text "```python\nprint(1)\n```")
          (some (MsgMeta.mk (some "🛠️ Used tool python_interpreter")
            (some "call_1") none (some "pending")))] :=
  code_tool_parent_message_content c5WitStep rfl

/-- C6: for every action step with a non-empty tool_calls field, the parent
message is yielded with status pending; every observations/error child
carries parent_id equal to the parent's id and status done; and after the
children the retained parent's status is mutated in place to done, with no
additional message emitted for the transition (the remaining tail carries no
metadata at all). -/
theorem tool_call_parent_pending_children_done
    (s : ActionStep) (tc : ToolCall) (rest : List ToolCall)
    (htc : s.tool_calls = some (tc :: rest)) :
    (pull_messages_from_step (StepLog.action s)).parentFinalStatus = some "done" ∧
    (parentMessageTool tc ("call_" ++ toString (tc :: rest).length)).metadata
      = some (MsgMeta.mk (some ("🛠️ Used tool " ++ tc.name))
          (some ("call_" ++ toString (tc :: rest).length)) none (some "pending")) ∧
    (∀ m ∈ execLogMessages s ("call_" ++ toString (tc :: rest).length) ++
        errorChildMessages s ("call_" ++ toString (tc :: rest).length),
      ∃ t c, m = ChatMessage.mk "assistant" (MsgContent.text c)
        (some (MsgMeta.mk (some t) none
          (some ("call_" ++ toString (tc :: rest).length)) (some "done")))) ∧
    ∃ tail, (pull_messages_from_step (StepLog.action s)).messages
        = [headerMessage s] ++ modelOutputMessages s ++
          [parentMessageTool tc ("call_" ++ toString (tc :: rest).length)] ++
          execLogMessages s ("call_" ++ toString (tc :: rest).length) ++
          errorChildMessages s ("call_" ++ toString (tc :: rest).length) ++ tail ∧
        ∀ m ∈ tail, m.metadata = none := by
  obtain ⟨tail, htail, hmsg, hstat⟩ := pull_messages_decomp s tc rest htc
  refine ⟨hstat, rfl, ?_, ⟨tail, hmsg, htail⟩⟩
  intro m hm
  rcases List.mem_append.mp hm with hm1 | hm2
  · exact execLog_messages_shape s _ m hm1
  · exact errorChild_messages_shape s _ m hm2

/-- C6 witness: concrete step with tool call, observations and error. -/
theorem tool_call_parent_pending_children_done_witness :
    (pull_messages_from_step (StepLog.action c6WitStep)).parentFinalStatus
        = some "done" ∧
    (parentMessageTool c6WitTool ("call_" ++ toString ([c6WitTool]).length)).metadata
      = some (MsgMeta.mk (some ("🛠️ Used tool " ++ c6WitTool.name))
          (some ("call_" ++ toString ([c6WitTool]).length)) none (some "pending")) ∧
    (∀ m ∈ execLogMessages c6WitStep ("call_" ++ toString ([c6WitTool]).length) ++
        errorChildMessages c6WitStep ("call_" ++ toString ([c6WitTool]).length),
      ∃ t c, m = ChatMessage.mk "assistant" (MsgContent.text c)
        (some (MsgMeta.mk (some t) none
          (some ("call_" ++ toString ([c6WitTool]).length)) (some "done")))) ∧
    ∃ tail, (pull_messages_from_step (StepLog.action c6WitStep)).messages
        = [headerMessage c6WitStep] ++ modelOutputMessages c6WitStep ++
          [parentMessageTool c6WitTool ("call_" ++ toString ([c6WitTool]).length)] ++
          execLogMessages c6WitStep ("call_" ++ toString ([c6WitTool]).length) ++
          errorChildMessages c6WitStep ("call_" ++ toString ([c6WitTool]).length)
            ++ tail ∧
        ∀ m ∈ tail, m.metadata = none :=
  tool_call_parent_pending_children_done c6WitStep c6WitTool [] rfl

/-- C7: over any agent stream without extraction errors, the streamer's
running totals are the sums of the per-call token counts; the message
sequence is the concatenation of the extraction of each step as stamped at
its own iteration; and stamping overwrites an action step's token-count
fields with the just-read per-call values (never the running totals), while
non-action steps are passed through unchanged. -/
theorem stream_token_totals_and_per_call_stamping
    (classify : StepLog → FinalAnswer) (items : List RunItem)
    (h : ∀ it ∈ items, (pull_messages_from_step (stamp it)).err = none) :
    (stream_to_gradio classify items).totalIn = (items.map countIn).sum ∧
    (stream_to_gradio classify items).totalOut = (items.map countOut).sum ∧
    (stream_to_gradio classify items).messages
      = (items.flatMap fun it => (pull_messages_from_step (stamp it)).messages)
        ++ (items.getLast?.map
            (fun lastIt => renderFinalAnswer (classify (stamp lastIt)))).toList ∧
    (∀ it ∈ items, ∀ s a b, it.step = StepLog.action s → it.counts = some (a, b) →
      stamp it = StepLog.action
        { s with input_token_count := some a, output_token_count := some b }) ∧
    (∀ it ∈ items, ∀ v, it.step = StepLog.other v → stamp it = StepLog.other v) := by
  have hstamp : ∀ it ∈ items, ∀ s a b, it.step = StepLog.action s →
      it.counts = some (a, b) →
      stamp it = StepLog.action
        { s with input_token_count := some a, output_token_count := some b } := by
    intro it _ s a b h1 h2
    cases it with
    | mk st cs =>
      simp only at h1 h2
      subst h1
      subst h2
      rfl
  have hother : ∀ it ∈ items, ∀ v, it.step = StepLog.other v →
      stamp it = StepLog.other v := by
    intro it _ v h1
    cases it with
    | mk st cs =>
      simp only at h1
      subst h1
      cases cs with
      | none => rfl
      | some c => cases c; rfl
  cases items with
  | nil =>
    refine ⟨?_, ?_, ?_, hstamp, hother⟩ <;> simp [stream_to_gradio, streamLoop]
  | cons it rest =>
    have he := h it (List.mem_cons_self it rest)
    have htail : ∀ x ∈ rest, (pull_messages_from_step (stamp x)).err = none :=
      fun x hx => h x (List.mem_cons_of_mem it hx)
    have hcalc : stream_to_gradio classify (it :: rest)
        = StreamResult.mk
            (((it :: rest).flatMap
                fun x => (pull_messages_from_step (stamp x)).messages)
              ++ [renderFinalAnswer
                  (classify (((it :: rest).getLast?.map stamp).getD (stamp it)))])
            (((it :: rest).map countIn).sum) (((it :: rest).map countOut).sum)
            none := by
      simp only [stream_to_gradio, streamLoop, he]
      rw [streamLoop_ok classify rest (0 + countIn it) (0 + countOut it)
          (stamp it) htail]
      cases rest with
      | nil => simp [Int.add_assoc]
      | cons r rs =>
        simp [List.getLast?_cons_cons, Int.add_assoc, List.append_assoc]
    refine ⟨?_, ?_, ?_, hstamp, hother⟩ <;> rw [hcalc]
    · cases rest with
      | nil => simp
      | cons r rs =>
        obtain ⟨y, hy⟩ : ∃ y, (r :: rs).getLast? = some y :=
          ⟨(r :: rs).getLast (by simp), List.getLast?_eq_getLast _ (by simp)⟩
        simp [List.getLast?_cons_cons, hy]

/-- C7 witness: a single-step stream with per-call counts 7 and 3. -/
theorem stream_token_totals_and_per_call_stamping_witness :
    (stream_to_gradio classifyW c7Items).totalIn = (c7Items.map countIn).sum ∧
    (stream_to_gradio classifyW c7Items).totalOut = (c7Items.map countOut).sum ∧
    (stream_to_gradio classifyW c7Items).messages
      = (c7Items.flatMap fun it => (pull_messages_from_step (stamp it)).messages)
        ++ (c7Items.getLast?.map
            (fun lastIt => renderFinalAnswer (classifyW (stamp lastIt)))).toList ∧
    (∀ it ∈ c7Items, ∀ s a b, it.step = StepLog.action s → it.counts = some (a, b) →
      stamp it = StepLog.action
        { s with input_token_count := some a, output_token_count := some b }) ∧
    (∀ it ∈ c7Items, ∀ v, it.step = StepLog.other v → stamp it = StepLog.other v) :=
  stream_token_totals_and_per_call_stamping classifyW c7Items (by decide)

/-- C8: with input_token_count 1200, output_token_count 5 and duration 1.236
the footnote message contains the token counts with thousands separators and
the duration rounded to two decimal places, exactly as claimed (the whole
footnote content is computed, in which the claimed substring is visible). -/
theorem footnote_token_counts_and_duration_format :
    (pull_messages_from_step (StepLog.action c8Step)).messages.get? 1
      = some (mkText ("<span style=\"color: #bbbbc2; font-size: 12px;\">" ++
          "Step 2 | Input-tokens:1,200 | Output-tokens:5 | Duration: 1.24" ++
          "</span> ")) := by
  decide

/-- C9: the final-answer rendering is a total function over the four
FinalAnswer variants (totality is by construction in Lean) and produces, for
each variant, exactly the claimed message. -/
theorem final_answer_renderer_total :
    (∀ t, renderFinalAnswer (FinalAnswer.text t)
        = ChatMessage.mk "assistant"
            (MsgContent.text ("**Final answer:**\n" ++ t ++ "\n")) none) ∧
    (∀ p, renderFinalAnswer (FinalAnswer.image p)
        = ChatMessage.mk "assistant" (MsgContent.media p "image/png") none) ∧
    (∀ p, renderFinalAnswer (FinalAnswer.audio p)
        = ChatMessage.mk "assistant" (MsgContent.media p "audio/wav") none) ∧
    (∀ v, renderFinalAnswer (FinalAnswer.other v)
        = ChatMessage.mk "assistant"
            (MsgContent.text ("**Final answer:** " ++ v)) none) :=
  ⟨fun _ => rfl, fun _ => rfl, fun _ => rfl, fun _ => rfl⟩

/-- C10: on an empty step sequence the streamer yields no messages and fails
with an unbound-variable error (Python UnboundLocalError) when it reads the
loop variable to normalize the last observed step, instead of yielding a
final-answer message. -/
theorem empty_run_unbound_step_log_error (classify : StepLog → FinalAnswer) :
    stream_to_gradio classify [] = StreamResult.mk [] 0 0 (some PyError.nameError) :=
  rfl
